import Mathlib

/-!
Verification of the billingms GST billing engine.

Numbers are modelled as exact rationals (`ℚ`); the JavaScript `Math.round`
is `⌊x + 1/2⌋` (round half toward positive infinity), which matches its
behaviour on all real inputs.
-/

/-! ## Definitions: the embedded data model and operations -/

/-- JavaScript `Math.round`: round half up (toward +∞). -/
def jsRound (x : ℚ) : ℤ := ⌊x + 1/2⌋

/-- `roundToNearestRupee` from `gst-calculations.ts`: `Math.round(value)`. -/
def roundToNearestRupee (value : ℚ) : ℚ := (jsRound value : ℚ)

/-- `roundToTwoDecimals` from `gst-calculations.ts`:
`Math.round(value * 100) / 100`. -/
def roundToTwoDecimals (value : ℚ) : ℚ := (jsRound (value * 100) : ℚ) / 100

/-- `roundGstAmount` from `gst-calculations.ts` (same as `roundToTwoDecimals`). -/
def roundGstAmount (value : ℚ) : ℚ := roundToTwoDecimals value

/-- `roundCurrency` from `einvoice.ts`: `Math.round(value * 100) / 100`. -/
def roundCurrency (value : ℚ) : ℚ := (jsRound (value * 100) : ℚ) / 100

/-- Result record of `calculateGstBreakdown` in `gst-calculations.ts`. -/
structure GstBreakdown where
  taxableAmount : ℚ
  cgst : ℚ
  sgst : ℚ
  igst : ℚ
  totalGst : ℚ
  totalAmount : ℚ
  deriving Repr, DecidableEq

/-- `calculateGstBreakdown` from `gst-calculations.ts`.  Intrastate: both
halves start as `roundGstAmount (gstAmount / 2)`; if the re-rounded sum
disagrees with `gstAmount`, `cgst` (not `sgst`) is recomputed as
`roundToTwoDecimals (gstAmount - sgst)`. -/
def calculateGstBreakdown (taxableAmount gstPercent : ℚ) (isInterState : Bool) :
    GstBreakdown :=
  let gstAmount := roundGstAmount (taxableAmount * gstPercent / 100)
  let cs : ℚ × ℚ × ℚ :=
    if isInterState then
      (0, 0, gstAmount)
    else
      let halfGst := roundGstAmount (gstAmount / 2)
      let cgst := halfGst
      let sgst := halfGst
      let cgst := if roundToTwoDecimals (cgst + sgst) ≠ gstAmount then
          roundToTwoDecimals (gstAmount - sgst)
        else cgst
      (cgst, sgst, 0)
  let totalGst := roundToTwoDecimals (cs.1 + cs.2.1 + cs.2.2)
  let totalAmount := roundToTwoDecimals (taxableAmount + totalGst)
  { taxableAmount := taxableAmount
    cgst := cs.1
    sgst := cs.2.1
    igst := cs.2.2
    totalGst := totalGst
    totalAmount := totalAmount }

/-- Result record of `calculateGst` in `einvoice.ts`. -/
structure GstParts where
  cgst : ℚ
  sgst : ℚ
  igst : ℚ
  deriving Repr, DecidableEq

/-- `calculateGst` from `einvoice.ts`: both intrastate halves are rounded
independently, with no remainder correction. -/
def calculateGst (taxableAmount gstPercent : ℚ) (isIgst : Bool) : GstParts :=
  let gstAmount := roundCurrency (taxableAmount * gstPercent / 100)
  if isIgst then
    { cgst := 0, sgst := 0, igst := gstAmount }
  else
    let halfGst := roundCurrency (gstAmount / 2)
    { cgst := halfGst, sgst := halfGst, igst := 0 }

/-- "Exactly one of the pair `{cgst, sgst}` or the single component `{igst}`
is nonzero". -/
def exactlyOneGroup (c s g : ℚ) : Prop :=
  ((c ≠ 0 ∨ s ≠ 0) ∧ g = 0) ∨ ((c = 0 ∧ s = 0) ∧ g ≠ 0)

/-- Per-line record produced by `calculateLineItem` in `gst-calculations.ts`
(the fields consumed by `calculateInvoiceTotals`). -/
structure LineItemCalculation where
  quantity : ℚ
  unitPrice : ℚ
  discount : ℚ
  taxableAmount : ℚ
  gstPercent : ℚ
  cgstPerUnit : ℚ
  sgstPerUnit : ℚ
  igstPerUnit : ℚ
  totalCgst : ℚ
  totalSgst : ℚ
  totalIgst : ℚ
  lineTotal : ℚ
  deriving Repr, DecidableEq

/-- Result record of `calculateInvoiceTotals` in `gst-calculations.ts`. -/
structure InvoiceTotals where
  subtotal : ℚ
  totalDiscount : ℚ
  taxableValue : ℚ
  totalCgst : ℚ
  totalSgst : ℚ
  totalIgst : ℚ
  totalTax : ℚ
  roundOff : ℚ
  grandTotal : ℚ
  deriving Repr, DecidableEq

/-- `calculateInvoiceTotals` from `gst-calculations.ts` (the `reduce` sums
become left folds). -/
def calculateInvoiceTotals (lineItems : List LineItemCalculation) : InvoiceTotals :=
  let subtotal := lineItems.foldl (fun sum item => sum + item.unitPrice * item.quantity) 0
  let totalDiscount := lineItems.foldl (fun sum item => sum + item.discount * item.quantity) 0
  let taxableValue := lineItems.foldl (fun sum item => sum + item.taxableAmount) 0
  let totalCgst := lineItems.foldl (fun sum item => sum + item.totalCgst) 0
  let totalSgst := lineItems.foldl (fun sum item => sum + item.totalSgst) 0
  let totalIgst := lineItems.foldl (fun sum item => sum + item.totalIgst) 0
  let totalTax := roundToTwoDecimals (totalCgst + totalSgst + totalIgst)
  let rawTotal := roundToTwoDecimals (taxableValue + totalTax)
  let grandTotal := roundToNearestRupee rawTotal
  let roundOff := roundToTwoDecimals (grandTotal - rawTotal)
  { subtotal := roundToTwoDecimals subtotal
    totalDiscount := roundToTwoDecimals totalDiscount
    taxableValue := roundToTwoDecimals taxableValue
    totalCgst := roundToTwoDecimals totalCgst
    totalSgst := roundToTwoDecimals totalSgst
    totalIgst := roundToTwoDecimals totalIgst
    totalTax := totalTax
    roundOff := roundOff
    grandTotal := grandTotal }

/-- A line item as summed by the `Billing.tsx` page (per-unit GST fields
multiplied by quantity). -/
structure BillingLineItem where
  taxableAmount : ℚ
  cgst : ℚ
  sgst : ℚ
  igst : ℚ
  discount : ℚ
  quantity : ℚ
  deriving Repr, DecidableEq

/-- `rawTotal` from `Billing.tsx`: raw float sums, no intermediate rounding. -/
def billingRawTotal (lineItems : List BillingLineItem) : ℚ :=
  lineItems.foldl (fun s i => s + i.taxableAmount) 0 +
    lineItems.foldl (fun s i => s + i.cgst * i.quantity) 0 +
    lineItems.foldl (fun s i => s + i.sgst * i.quantity) 0 +
    lineItems.foldl (fun s i => s + i.igst * i.quantity) 0

/-- `grandTotal` from `Billing.tsx`: `Math.round(rawTotal)`. -/
def billingGrandTotal (lineItems : List BillingLineItem) : ℚ :=
  (jsRound (billingRawTotal lineItems) : ℚ)

/-- `roundOff` from `Billing.tsx`: `Math.round(rawTotal) - rawTotal`. -/
def billingRoundOff (lineItems : List BillingLineItem) : ℚ :=
  (jsRound (billingRawTotal lineItems) : ℚ) - billingRawTotal lineItems

/-- JavaScript `String.prototype.padStart(4, '0')`. -/
def padStart4 (s : String) : String :=
  if s.length ≥ 4 then s else ⟨List.replicate (4 - s.length) '0'⟩ ++ s

/-- Number of `'/'` characters in a string. -/
def countSlash (s : String) : Nat := s.data.count '/'

/-- The fiscal-year label `"{year}-{(year+1) mod 100}"`. -/
def fiscalLabel (year : Nat) : String :=
  toString year ++ "-" ++ toString ((year + 1) % 100)

/-- `getFiscalYear` from `database.ts`, with the current date supplied as a
calendar year and a 0-based month (JavaScript `getMonth()`). -/
def getFiscalYear (year month0 : Nat) : String :=
  fiscalLabel (if month0 ≥ 3 then year else year - 1)

/-- The fields of the `AppSettings` record used by number allocation
(`invoicePrefixStr` models the source's invoice-number series field). -/
structure AppSettings where
  invoicePrefixStr : String
  currentInvoiceNumber : Nat
  currentPurchaseNumber : Nat
  deriving Repr, DecidableEq

/-- `getNextInvoiceNumber` from `database.ts`: increments the persisted
counter and formats `PREFIX/FY/NNNN`. -/
def getNextInvoiceNumber (s : AppSettings) (year month0 : Nat) : String × AppSettings :=
  let next := s.currentInvoiceNumber + 1
  (s.invoicePrefixStr ++ "/" ++ getFiscalYear year month0 ++ "/" ++ padStart4 (toString next),
   { s with currentInvoiceNumber := next })

/-- `getNextPurchaseNumber` from `database.ts`: increments the persisted
counter and formats `PUR/NNNN` — with no fiscal-year segment. -/
def getNextPurchaseNumber (s : AppSettings) : String × AppSettings :=
  let next := s.currentPurchaseNumber + 1
  ("PUR/" ++ padStart4 (toString next), { s with currentPurchaseNumber := next })

/-- The claimed document-number shape: a slash-free series code, then the
fiscal-year label, then the padded sequence value. -/
def docNumberFormat (s : String) : Prop :=
  ∃ (pre : String) (y seq : Nat),
    countSlash pre = 0 ∧
    s = pre ++ "/" ++ fiscalLabel y ++ "/" ++ padStart4 (toString seq)

/-- Settings record with the seed counters from `database.ts`. -/
def sampleSettings : AppSettings :=
  { invoicePrefixStr := "SE", currentInvoiceNumber := 1000, currentPurchaseNumber := 500 }

/-- The fields of an `InventoryItem` row that the stock engine touches. -/
structure Item where
  currentStock : Int
  purchasePrice : ℚ
  deriving Repr, DecidableEq

/-- One line of a sale batch: `{ itemId, quantity, name }`. -/
structure SaleLine where
  itemId : Nat
  quantity : Int
  name : String
  deriving Repr, DecidableEq

/-- One line of a purchase batch: `{ itemId, quantity, name, purchasePrice }`. -/
structure PurchaseLine where
  itemId : Nat
  quantity : Int
  name : String
  purchasePrice : ℚ
  deriving Repr, DecidableEq

/-- A `StockLedger` row (`entryType` models the source's `type` field). -/
structure StockLedgerEntry where
  itemId : Nat
  itemName : String
  entryType : String
  referenceId : String
  quantityChange : Int
  previousStock : Int
  newStock : Int
  deriving Repr, DecidableEq

/-- The fields of an `Invoice` row used by cancellation
(`invId` models the auto-increment primary key `id`). -/
structure Invoice where
  invId : Nat
  invoiceNumber : String
  status : String
  items : List SaleLine
  deriving Repr, DecidableEq

/-- The database stores touched by the stock engine. -/
structure DbState where
  items : Nat → Option Item
  ledger : List StockLedgerEntry
  invoices : List Invoice

/-- One iteration of the `updateStockAfterSale` loop: a missing item is
silently skipped; insufficient stock throws; otherwise the item row is
patched and a `sale` ledger row is appended. -/
def saleLineStep (invoiceNumber : String) (st : DbState) (l : SaleLine) :
    Except String DbState :=
  match st.items l.itemId with
  | none => Except.ok st
  | some dbItem =>
    let newStock := dbItem.currentStock - l.quantity
    if newStock < 0 then Except.error ("Insufficient stock for " ++ l.name)
    else Except.ok
      { st with
        items := fun j => if j = l.itemId then
            some { dbItem with currentStock := newStock } else st.items j
        ledger := st.ledger ++
          [{ itemId := l.itemId, itemName := l.name, entryType := "sale",
             referenceId := invoiceNumber, quantityChange := -l.quantity,
             previousStock := dbItem.currentStock, newStock := newStock }] }

/-- The `for` loop of `updateStockAfterSale`; the first thrown error aborts. -/
def saleLoop (invoiceNumber : String) : DbState → List SaleLine → Except String DbState
  | st, [] => Except.ok st
  | st, l :: ls =>
    match saleLineStep invoiceNumber st l with
    | Except.error e => Except.error e
    | Except.ok st1 => saleLoop invoiceNumber st1 ls

/-- `updateStockAfterSale` from `database.ts`, including the transaction
wrapper: on an error the transaction rolls back and the state is unchanged. -/
def updateStockAfterSale (st : DbState) (ls : List SaleLine) (invoiceNumber : String) :
    DbState × Option String :=
  match saleLoop invoiceNumber st ls with
  | Except.ok st1 => (st1, none)
  | Except.error e => (st, some e)

/-- One iteration of the `reverseStockAfterSaleCancellation` loop: adds the
quantity back and appends an `adjustment` row referencing `CANCEL-<number>`. -/
def reversalLineStep (invoiceNumber : String) (st : DbState) (l : SaleLine) : DbState :=
  match st.items l.itemId with
  | none => st
  | some dbItem =>
    let newStock := dbItem.currentStock + l.quantity
    { st with
      items := fun j => if j = l.itemId then
          some { dbItem with currentStock := newStock } else st.items j
      ledger := st.ledger ++
        [{ itemId := l.itemId, itemName := l.name, entryType := "adjustment",
           referenceId := "CANCEL-" ++ invoiceNumber, quantityChange := l.quantity,
           previousStock := dbItem.currentStock, newStock := newStock }] }

/-- `reverseStockAfterSaleCancellation` from `database.ts` (never throws). -/
def reverseStockAfterSaleCancellation (st : DbState) (ls : List SaleLine)
    (invoiceNumber : String) : DbState :=
  ls.foldl (reversalLineStep invoiceNumber) st

/-- One iteration of the `updateStockAfterPurchase` loop: adds stock, patches
the purchase price and appends a `purchase` row. -/
def purchaseLineStep (purchaseNumber : String) (st : DbState) (l : PurchaseLine) : DbState :=
  match st.items l.itemId with
  | none => st
  | some dbItem =>
    let newStock := dbItem.currentStock + l.quantity
    { st with
      items := fun j => if j = l.itemId then
          some { currentStock := newStock, purchasePrice := l.purchasePrice }
        else st.items j
      ledger := st.ledger ++
        [{ itemId := l.itemId, itemName := l.name, entryType := "purchase",
           referenceId := purchaseNumber, quantityChange := l.quantity,
           previousStock := dbItem.currentStock, newStock := newStock }] }

/-- `updateStockAfterPurchase` from `database.ts` (never throws). -/
def updateStockAfterPurchase (st : DbState) (ls : List PurchaseLine)
    (purchaseNumber : String) : DbState :=
  ls.foldl (purchaseLineStep purchaseNumber) st

/-- Result of `validateStockForSale`. -/
structure ValidationResult where
  valid : Bool
  errors : List String
  deriving Repr, DecidableEq

/-- The error list accumulated by the `validateStockForSale` loop. -/
def validateMessages (st : DbState) : List SaleLine → List String
  | [] => []
  | l :: ls =>
    (match st.items l.itemId with
     | none => ["Item ID " ++ toString l.itemId ++ " not found"]
     | some dbItem =>
       if dbItem.currentStock < l.quantity then
         ["Insufficient stock for " ++ l.name ++ ": available " ++
           toString dbItem.currentStock ++ ", requested " ++ toString l.quantity]
       else []) ++ validateMessages st ls

/-- `validateStockForSale` from `database.ts`: a read-only dry run. -/
def validateStockForSale (st : DbState) (ls : List SaleLine) : ValidationResult :=
  { valid := (validateMessages st ls).length == 0, errors := validateMessages st ls }

/-- `cancelInvoice` from `database.ts`: rejects a missing or
already-cancelled invoice, reverses stock when the invoice was completed,
then marks it cancelled. -/
def cancelInvoice (st : DbState) (invoiceId : Nat) : Except String DbState :=
  match st.invoices.find? (fun v => v.invId == invoiceId) with
  | none => Except.error "Invoice not found"
  | some inv =>
    if inv.status = "cancelled" then Except.error "Invoice already cancelled"
    else
      let st1 := if inv.status = "completed" then
          reverseStockAfterSaleCancellation st inv.items inv.invoiceNumber
        else st
      Except.ok
        { st1 with
          invoices := st1.invoices.map
            (fun v => if v.invId = invoiceId then { v with status := "cancelled" } else v) }

/-- `cancelInvoice` seen from the caller: a thrown error leaves every store
unchanged (the guards run before any mutation). -/
def cancelInvoiceTx (st : DbState) (invoiceId : Nat) : DbState × Option String :=
  match cancelInvoice st invoiceId with
  | Except.ok st1 => (st1, none)
  | Except.error e => (st, some e)

/-- A ledger row is internally consistent. -/
def entryOk (e : StockLedgerEntry) : Prop :=
  e.newStock = e.previousStock + e.quantityChange

/-- The ledger rows of one item, in insertion order. -/
def entriesFor (i : Nat) (es : List StockLedgerEntry) : List StockLedgerEntry :=
  es.filter (fun e => e.itemId == i)

/-- Consecutive rows chain: each row starts where the previous one ended. -/
def chainOk : List StockLedgerEntry → Prop
  | [] => True
  | [_] => True
  | a :: b :: rest => b.previousStock = a.newStock ∧ chainOk (b :: rest)

/-- The inductive invariant: all rows consistent, all per-item chains
linked, and each item's last row agrees with its current stock. -/
def StateInv (st : DbState) : Prop :=
  (∀ e ∈ st.ledger, entryOk e) ∧
  (∀ i, chainOk (entriesFor i st.ledger)) ∧
  (∀ i e, (entriesFor i st.ledger).getLast? = some e →
    ∃ itm, st.items i = some itm ∧ itm.currentStock = e.newStock)

/-- States reachable from an empty ledger by any sequence of sale batches
(with rollback on failure), purchase batches and reversals. -/
inductive Reachable : DbState → Prop
  | init (items : Nat → Option Item) (invoices : List Invoice) :
      Reachable { items := items, ledger := [], invoices := invoices }
  | sale {st : DbState} (ls : List SaleLine) (invoiceNumber : String) :
      Reachable st → Reachable (updateStockAfterSale st ls invoiceNumber).1
  | purchase {st : DbState} (ls : List PurchaseLine) (purchaseNumber : String) :
      Reachable st → Reachable (updateStockAfterPurchase st ls purchaseNumber)
  | reversal {st : DbState} (ls : List SaleLine) (invoiceNumber : String) :
      Reachable st → Reachable (reverseStockAfterSaleCancellation st ls invoiceNumber)

/-- A one-item store used by the concrete witnesses. -/
def demoItems : Nat → Option Item := fun j => if j = 1 then some ⟨10, 9⟩ else none

/-- Concrete reachable state: a purchase of 5 then a sale of 3 on item 1. -/
def demoState : DbState :=
  (updateStockAfterSale
    (updateStockAfterPurchase { items := demoItems, ledger := [], invoices := [] }
      [⟨1, 5, "Wire", 12⟩] "PUR/0501")
    [⟨1, 3, "Wire"⟩] "SE/2025-26/1001").1

/-- Concrete store holding one cancelled invoice. -/
def cancelledState : DbState :=
  { items := fun _ => none, ledger := [],
    invoices := [⟨7, "SE/2025-26/1001", "cancelled", []⟩] }

/-- Items store for the C10 witness: item 2 does not exist. -/
def demoItemsOne : Nat → Option Item := fun j => if j = 1 then some ⟨10, 9⟩ else none

/-! ## Theorems -/

lemma jsRound_eq_of (x : ℚ) (n : ℤ) (h1 : (n : ℚ) ≤ x + 1/2) (h2 : x + 1/2 < n + 1) :
    jsRound x = n :=
  Int.floor_eq_iff.mpr ⟨h1, h2⟩

lemma jsRound_intCast (n : ℤ) : jsRound (n : ℚ) = n := by
  apply jsRound_eq_of
  · linarith
  · linarith

/-- Rounding to two decimals fixes every whole number of paise. -/
lemma roundToTwoDecimals_cent (n : ℤ) : roundToTwoDecimals ((n : ℚ) / 100) = (n : ℚ) / 100 := by
  unfold roundToTwoDecimals
  rw [div_mul_cancel₀ _ (by norm_num : (100 : ℚ) ≠ 0), jsRound_intCast]

/-- Every two-decimal rounding result is a whole number of paise. -/
lemma roundToTwoDecimals_form (x : ℚ) : ∃ n : ℤ, roundToTwoDecimals x = (n : ℚ) / 100 :=
  ⟨jsRound (x * 100), rfl⟩

lemma roundGstAmount_form (x : ℚ) : ∃ n : ℤ, roundGstAmount x = (n : ℚ) / 100 :=
  roundToTwoDecimals_form x

lemma jsRound_le (x : ℚ) : (jsRound x : ℚ) ≤ x + 1/2 := Int.floor_le _

lemma lt_jsRound (x : ℚ) : x - 1/2 < (jsRound x : ℚ) := by
  have h := Int.sub_one_lt_floor (x + 1/2)
  unfold jsRound
  linarith

lemma abs_jsRound_sub_le (x : ℚ) : |(jsRound x : ℚ) - x| ≤ 1/2 := by
  rw [abs_le]
  constructor
  · have := lt_jsRound x
    linarith
  · have := jsRound_le x
    linarith

/-- The intrastate split of `calculateGstBreakdown`, solved in closed form:
`sgst` is always the rounded half and `cgst` always the exact remainder
`gstAmount - sgst`. -/
lemma calculateGstBreakdown_intrastate (T R : ℚ) :
    (calculateGstBreakdown T R false).cgst =
      roundGstAmount (T * R / 100) - roundGstAmount (roundGstAmount (T * R / 100) / 2) ∧
    (calculateGstBreakdown T R false).sgst =
      roundGstAmount (roundGstAmount (T * R / 100) / 2) := by
  obtain ⟨m, hm⟩ := roundGstAmount_form (T * R / 100)
  obtain ⟨k, hk⟩ := roundGstAmount_form (roundGstAmount (T * R / 100) / 2)
  unfold calculateGstBreakdown
  simp only [Bool.false_eq_true, if_false]
  constructor
  · by_cases hc : roundToTwoDecimals
        (roundGstAmount (roundGstAmount (T * R / 100) / 2) +
         roundGstAmount (roundGstAmount (T * R / 100) / 2)) =
        roundGstAmount (T * R / 100)
    · simp only [hc, ne_eq, not_true_eq_false, if_false]
      rw [hk] at hc ⊢
      rw [hm] at hc ⊢
      have h2 : ((k : ℚ) / 100 + (k : ℚ) / 100) = ((k + k : ℤ) : ℚ) / 100 := by
        push_cast
        ring
      rw [h2, roundToTwoDecimals_cent] at hc
      push_cast at hc ⊢
      linarith
    · simp only [hc, ne_eq, not_false_eq_true, if_true]
      rw [hk, hm]
      have h2 : ((m : ℚ) / 100 - (k : ℚ) / 100) = ((m - k : ℤ) : ℚ) / 100 := by
        push_cast
        ring
      rw [h2, roundToTwoDecimals_cent]
  · trivial

/-- C1, for the `gst-calculations.ts` engine: the two intrastate components
always recombine exactly to the single-rounded whole GST amount. -/
lemma calculateGstBreakdown_split_sum (T R : ℚ) :
    (calculateGstBreakdown T R false).cgst + (calculateGstBreakdown T R false).sgst =
      roundGstAmount (T * R / 100) := by
  obtain ⟨h1, h2⟩ := calculateGstBreakdown_intrastate T R
  rw [h1, h2]
  ring

lemma calculateGstBreakdown_false_igst (T R : ℚ) :
    (calculateGstBreakdown T R false).igst = 0 := rfl

lemma calculateGstBreakdown_true_eval (T R : ℚ) :
    (calculateGstBreakdown T R true).cgst = 0 ∧
    (calculateGstBreakdown T R true).sgst = 0 ∧
    (calculateGstBreakdown T R true).igst = roundGstAmount (T * R / 100) :=
  ⟨rfl, rfl, rfl⟩

lemma calculateGst_true_eval (T R : ℚ) :
    calculateGst T R true = ⟨0, 0, roundCurrency (T * R / 100)⟩ := rfl

lemma calculateGst_false_eval (T R : ℚ) :
    calculateGst T R false =
      ⟨roundCurrency (roundCurrency (T * R / 100) / 2),
       roundCurrency (roundCurrency (T * R / 100) / 2), 0⟩ := rfl

lemma roundCurrency_eq_roundToTwoDecimals (x : ℚ) :
    roundCurrency x = roundToTwoDecimals x := rfl

lemma roundCurrency_form (x : ℚ) : ∃ n : ℤ, roundCurrency x = (n : ℚ) / 100 :=
  ⟨jsRound (x * 100), rfl⟩

lemma round2_three_paise : roundToTwoDecimals ((1 : ℚ) * 3 / 100) = 3 / 100 := by
  unfold roundToTwoDecimals
  rw [jsRound_eq_of ((1 : ℚ) * 3 / 100 * 100) 3 (by norm_num) (by norm_num)]
  norm_num

lemma round2_half_three_paise : roundToTwoDecimals ((3 : ℚ) / 100 / 2) = 2 / 100 := by
  unfold roundToTwoDecimals
  rw [jsRound_eq_of ((3 : ℚ) / 100 / 2 * 100) 2 (by norm_num) (by norm_num)]
  norm_num

lemma round2_zero : roundToTwoDecimals 0 = 0 := by
  unfold roundToTwoDecimals
  rw [jsRound_eq_of ((0 : ℚ) * 100) 0 (by norm_num) (by norm_num)]
  norm_num

/-- C1: the einvoice engine at taxable 1, rate 3 (intrastate): the whole GST
amount is 0.03 but the two independently rounded halves are 0.02 each. -/
theorem calculateGst_split_drift_cex :
    (calculateGst 1 3 false).cgst + (calculateGst 1 3 false).sgst ≠
      roundCurrency ((1 : ℚ) * 3 / 100) := by
  rw [calculateGst_false_eval]
  simp only [roundCurrency_eq_roundToTwoDecimals, round2_three_paise,
    round2_half_three_paise]
  norm_num

/-- C1 (amended): the split-sum invariant holds exactly for
`calculateGstBreakdown`; the einvoice `calculateGst` instead returns two
independently rounded halves, whose sum is `2·round2(gstAmount/2)` and can
drift from `gstAmount`. -/
theorem gst_split_sum (T R : ℚ) :
    (calculateGstBreakdown T R false).cgst + (calculateGstBreakdown T R false).sgst =
      roundGstAmount (T * R / 100) ∧
    (calculateGst T R false).cgst + (calculateGst T R false).sgst =
      2 * roundCurrency (roundCurrency (T * R / 100) / 2) := by
  refine ⟨calculateGstBreakdown_split_sum T R, ?_⟩
  rw [calculateGst_false_eval]
  ring

/-- C5: at taxable 1, rate 3, the code assigns the rounded half 0.02 to
SGST and the remainder 0.01 to CGST — the opposite of the claim. -/
theorem intrastate_rounding_cex :
    ¬ ((calculateGstBreakdown 1 3 false).cgst =
         roundGstAmount (roundGstAmount ((1 : ℚ) * 3 / 100) / 2) ∧
       (calculateGstBreakdown 1 3 false).sgst =
         roundGstAmount ((1 : ℚ) * 3 / 100) -
           roundGstAmount (roundGstAmount ((1 : ℚ) * 3 / 100) / 2)) := by
  obtain ⟨hc, hs⟩ := calculateGstBreakdown_intrastate 1 3
  intro ⟨h1, _⟩
  rw [hc] at h1
  simp only [roundGstAmount, round2_three_paise, round2_half_three_paise] at h1
  norm_num at h1

/-- C5 (amended): in the intrastate case, `sgst` is the rounded half
`round2(gstAmount / 2)` and `cgst` is the remainder `gstAmount − sgst`:
any odd-paisa remainder goes to CGST, not to SGST. -/
theorem intrastate_remainder_to_cgst (T R : ℚ) :
    (calculateGstBreakdown T R false).sgst =
      roundGstAmount (roundGstAmount (T * R / 100) / 2) ∧
    (calculateGstBreakdown T R false).cgst =
      roundGstAmount (T * R / 100) - (calculateGstBreakdown T R false).sgst := by
  obtain ⟨hc, hs⟩ := calculateGstBreakdown_intrastate T R
  exact ⟨hs, by rw [hc, hs]⟩

/-- C7: at taxable 100, rate 0 (intrastate) all three components are zero,
so no group is nonzero and the "exactly one" claim fails. -/
theorem gst_exclusivity_cex :
    ¬ exactlyOneGroup (calculateGstBreakdown 100 0 false).cgst
        (calculateGstBreakdown 100 0 false).sgst
        (calculateGstBreakdown 100 0 false).igst := by
  obtain ⟨hc, hs⟩ := calculateGstBreakdown_intrastate 100 0
  have hg : roundGstAmount ((100 : ℚ) * 0 / 100) = 0 := by
    simpa [roundGstAmount] using round2_zero
  have hg2 : roundGstAmount ((0 : ℚ) / 2) = 0 := by
    simpa [roundGstAmount] using round2_zero
  have hsgst : (calculateGstBreakdown 100 0 false).sgst = 0 := by
    rw [hs, hg, hg2]
  have hcgst : (calculateGstBreakdown 100 0 false).cgst = 0 := by
    rw [hc, hg, hg2]
    norm_num
  rintro (⟨h1 | h1, _⟩ | ⟨_, h2⟩)
  · exact h1 hcgst
  · exact h1 hsgst
  · exact h2 (calculateGstBreakdown_false_igst 100 0)

/-- C7 (amended): the two groups are never both nonzero, in either GST
engine; when the rounded GST amount is nonzero, exactly one group is
nonzero for `calculateGstBreakdown`, and likewise for the einvoice
`calculateGst` when the rounded GST amount is positive. -/
theorem gst_group_exclusivity (T R : ℚ) (b : Bool) :
    (¬ (((calculateGstBreakdown T R b).cgst ≠ 0 ∨
          (calculateGstBreakdown T R b).sgst ≠ 0) ∧
         (calculateGstBreakdown T R b).igst ≠ 0)) ∧
    (¬ (((calculateGst T R b).cgst ≠ 0 ∨ (calculateGst T R b).sgst ≠ 0) ∧
         (calculateGst T R b).igst ≠ 0)) ∧
    (roundGstAmount (T * R / 100) ≠ 0 →
      exactlyOneGroup (calculateGstBreakdown T R b).cgst
        (calculateGstBreakdown T R b).sgst (calculateGstBreakdown T R b).igst) ∧
    (0 < roundCurrency (T * R / 100) →
      exactlyOneGroup (calculateGst T R b).cgst (calculateGst T R b).sgst
        (calculateGst T R b).igst) := by
  cases b
  · refine ⟨?_, ?_, ?_, ?_⟩
    · rintro ⟨_, hg⟩
      exact hg (calculateGstBreakdown_false_igst T R)
    · rw [calculateGst_false_eval]
      rintro ⟨_, hg⟩
      exact hg rfl
    · intro hgz
      left
      refine ⟨?_, calculateGstBreakdown_false_igst T R⟩
      by_contra hboth
      push_neg at hboth
      have hsum := calculateGstBreakdown_split_sum T R
      rw [hboth.1, hboth.2] at hsum
      norm_num at hsum
      exact hgz hsum.symm
    · intro hpos
      rw [calculateGst_false_eval]
      left
      refine ⟨Or.inl ?_, rfl⟩
      obtain ⟨m, hm⟩ := roundCurrency_form (T * R / 100)
      rw [hm] at hpos
      have hm1 : (1 : ℤ) ≤ m := by
        by_contra hcon
        push_neg at hcon
        have hle : m ≤ 0 := by omega
        have : (m : ℚ) ≤ 0 := by exact_mod_cast hle
        nlinarith
      have hhalf : (1 : ℤ) ≤ jsRound ((m : ℚ) / 100 / 2 * 100) := by
        apply Int.le_floor.mpr
        push_cast
        have : (1 : ℚ) ≤ (m : ℚ) := by exact_mod_cast hm1
        nlinarith
      rw [hm]
      unfold roundCurrency
      intro hz
      rw [div_eq_zero_iff] at hz
      rcases hz with hz | hz
      · have : jsRound ((m : ℚ) / 100 / 2 * 100) = 0 := by exact_mod_cast hz
        omega
      · norm_num at hz
  · refine ⟨?_, ?_, ?_, ?_⟩
    · rintro ⟨h1 | h1, _⟩
      · exact h1 (calculateGstBreakdown_true_eval T R).1
      · exact h1 (calculateGstBreakdown_true_eval T R).2.1
    · rw [calculateGst_true_eval]
      rintro ⟨h1 | h1, _⟩ <;> exact h1 rfl
    · intro hgz
      right
      refine ⟨⟨(calculateGstBreakdown_true_eval T R).1,
        (calculateGstBreakdown_true_eval T R).2.1⟩, ?_⟩
      rw [(calculateGstBreakdown_true_eval T R).2.2]
      exact hgz
    · intro hpos
      rw [calculateGst_true_eval]
      right
      exact ⟨⟨rfl, rfl⟩, by simpa using ne_of_gt hpos⟩

/-- C8: for every list of line items, in both the library totals and the
Billing page totals, `|roundOff| < 1` and the grand total is a whole number
of currency units. -/
theorem invoice_totals_roundoff_bound (lineItems : List LineItemCalculation)
    (pageItems : List BillingLineItem) :
    |(calculateInvoiceTotals lineItems).roundOff| < 1 ∧
    (∃ n : ℤ, (calculateInvoiceTotals lineItems).grandTotal = (n : ℚ)) ∧
    |billingRoundOff pageItems| < 1 ∧
    (∃ n : ℤ, billingGrandTotal pageItems = (n : ℚ)) := by
  refine ⟨?_, ⟨jsRound (roundToTwoDecimals
      ((lineItems.foldl (fun sum item => sum + item.taxableAmount) 0) +
        roundToTwoDecimals
          ((lineItems.foldl (fun sum item => sum + item.totalCgst) 0) +
            (lineItems.foldl (fun sum item => sum + item.totalSgst) 0) +
            (lineItems.foldl (fun sum item => sum + item.totalIgst) 0)))), rfl⟩,
    ?_, ⟨jsRound (billingRawTotal pageItems), rfl⟩⟩
  · show |roundToTwoDecimals (roundToNearestRupee (roundToTwoDecimals _) -
      roundToTwoDecimals _)| < 1
    set x : ℚ := roundToTwoDecimals
      ((lineItems.foldl (fun sum item => sum + item.taxableAmount) 0) +
        roundToTwoDecimals
          ((lineItems.foldl (fun sum item => sum + item.totalCgst) 0) +
            (lineItems.foldl (fun sum item => sum + item.totalSgst) 0) +
            (lineItems.foldl (fun sum item => sum + item.totalIgst) 0))) with hx
    obtain ⟨m, hm⟩ : ∃ n : ℤ, x = (n : ℚ) / 100 := roundToTwoDecimals_form _
    have hdiff : roundToNearestRupee x - x = ((100 * jsRound x - m : ℤ) : ℚ) / 100 := by
      rw [hm]
      push_cast
      unfold roundToNearestRupee
      ring
    rw [hdiff, roundToTwoDecimals_cent, ← hdiff]
    have h1 := abs_jsRound_sub_le x
    unfold roundToNearestRupee
    calc |(jsRound x : ℚ) - x| ≤ 1/2 := h1
      _ < 1 := by norm_num
  · unfold billingRoundOff
    calc |(jsRound (billingRawTotal pageItems) : ℚ) - billingRawTotal pageItems| ≤ 1/2 :=
        abs_jsRound_sub_le _
      _ < 1 := by norm_num

lemma countSlash_append (a b : String) :
    countSlash (a ++ b) = countSlash a + countSlash b := by
  simp [countSlash, String.data_append, List.count_append]

/-- C6: the purchase number allocated from the seed settings is
`"PUR/0501"`, and no decomposition `PREFIX/FY/NNNN` (which contains two
slashes) matches it (it has a single slash). -/
theorem purchase_number_format_cex :
    (getNextPurchaseNumber sampleSettings).1 = "PUR/0501" ∧
    ¬ docNumberFormat "PUR/0501" := by
  refine ⟨by decide, ?_⟩
  rintro ⟨pre, y, seq, hpre, heq⟩
  have hcount : countSlash "PUR/0501" =
      countSlash pre + countSlash "/" + countSlash (fiscalLabel y) +
        countSlash "/" + countSlash (padStart4 (toString seq)) := by
    rw [heq]
    simp [countSlash_append]
  have h1 : countSlash "PUR/0501" = 1 := by decide
  have h2 : countSlash "/" = 1 := by decide
  rw [h1, hpre, h2] at hcount
  omega

/-- C6 (amended): invoice numbers follow `PREFIX/FY/NNNN` (for a slash-free
series code); purchase numbers are formatted `PUR/NNNN` with the 4-digit
padded sequence but no fiscal-year segment. -/
theorem document_number_formats (s : AppSettings) (year month0 : Nat)
    (hpre : countSlash s.invoicePrefixStr = 0) :
    docNumberFormat (getNextInvoiceNumber s year month0).1 ∧
    (getNextPurchaseNumber s).1 =
      "PUR/" ++ padStart4 (toString (s.currentPurchaseNumber + 1)) := by
  constructor
  · exact ⟨s.invoicePrefixStr, (if month0 ≥ 3 then year else year - 1),
      s.currentInvoiceNumber + 1, hpre, rfl⟩
  · rfl

/-- Witness for C6's amended theorem: the seed settings, May 2025. -/
theorem document_number_formats_witness :
    docNumberFormat (getNextInvoiceNumber sampleSettings 2025 4).1 ∧
    (getNextPurchaseNumber sampleSettings).1 =
      "PUR/" ++ padStart4 (toString (sampleSettings.currentPurchaseNumber + 1)) :=
  document_number_formats sampleSettings 2025 4 (by decide)

lemma entriesFor_append (i : Nat) (es fs : List StockLedgerEntry) :
    entriesFor i (es ++ fs) = entriesFor i es ++ entriesFor i fs :=
  List.filter_append _ _

lemma chainOk_concat :
    ∀ (es : List StockLedgerEntry) (e : StockLedgerEntry), chainOk es →
      (∀ a, es.getLast? = some a → e.previousStock = a.newStock) →
      chainOk (es ++ [e])
  | [], _, _, _ => trivial
  | [a], e, _, hlast => ⟨hlast a rfl, trivial⟩
  | a :: b :: rest, e, h, hlast =>
    ⟨h.1, chainOk_concat (b :: rest) e h.2
      (fun x hx => hlast x (by rw [List.getLast?_cons_cons]; exact hx))⟩

/-- Appending one consistent ledger row for item `i` that starts at the
item's current stock, while moving the item to the row's final stock,
preserves the state invariant. -/
lemma stateInv_append (st : DbState) (hInv : StateInv st) (i : Nat)
    (itm itm' : Item) (e : StockLedgerEntry) (invs : List Invoice)
    (hi : st.items i = some itm) (hid : e.itemId = i)
    (hprev : e.previousStock = itm.currentStock) (hok : entryOk e)
    (hcur : itm'.currentStock = e.newStock) :
    StateInv { items := fun j => if j = i then some itm' else st.items j,
               ledger := st.ledger ++ [e], invoices := invs } := by
  obtain ⟨hall, hchain, hlast⟩ := hInv
  refine ⟨?_, ?_, ?_⟩
  · intro x hx
    rcases List.mem_append.mp hx with hx | hx
    · exact hall x hx
    · rcases List.mem_singleton.mp hx with rfl
      exact hok
  · intro j
    show chainOk (entriesFor j (st.ledger ++ [e]))
    rw [entriesFor_append]
    by_cases hj : j = i
    · subst hj
      have hfil : entriesFor j [e] = [e] := by
        simp [entriesFor, List.filter, hid]
      rw [hfil]
      apply chainOk_concat _ _ (hchain j)
      intro a ha
      obtain ⟨itm0, hitm0, hstock0⟩ := hlast j a ha
      rw [hi] at hitm0
      cases hitm0
      rw [hprev, hstock0]
    · have hfil : entriesFor j [e] = [] := by
        simp only [entriesFor, List.filter]
        have : (e.itemId == j) = false := by
          simp [hid]
          omega
        rw [this]
      rw [hfil, List.append_nil]
      exact hchain j
  · intro j x hx
    rw [entriesFor_append] at hx
    by_cases hj : j = i
    · subst hj
      have hfil : entriesFor j [e] = [e] := by
        simp [entriesFor, List.filter, hid]
      rw [hfil, List.getLast?_concat] at hx
      cases hx
      exact ⟨itm', by simp, hcur⟩
    · have hfil : entriesFor j [e] = [] := by
        simp only [entriesFor, List.filter]
        have : (e.itemId == j) = false := by
          simp [hid]
          omega
        rw [this]
      rw [hfil, List.append_nil] at hx
      obtain ⟨itm0, hitm0, hstock0⟩ := hlast j x hx
      exact ⟨itm0, by simp [hj, hitm0], hstock0⟩

lemma saleLineStep_inv (invoiceNumber : String) (st : DbState) (l : SaleLine)
    (st1 : DbState) (h : saleLineStep invoiceNumber st l = Except.ok st1)
    (hInv : StateInv st) : StateInv st1 := by
  unfold saleLineStep at h
  cases hitem : st.items l.itemId with
  | none =>
    rw [hitem] at h
    cases h
    exact hInv
  | some dbItem =>
    simp only [hitem] at h
    by_cases hneg : dbItem.currentStock - l.quantity < 0
    · rw [if_pos hneg] at h
      exact Except.noConfusion h
    · rw [if_neg hneg] at h
      cases h
      exact stateInv_append st hInv l.itemId dbItem _ _ st.invoices hitem rfl rfl
        (by unfold entryOk; dsimp only []; omega) rfl

lemma saleLoop_inv (invoiceNumber : String) :
    ∀ (ls : List SaleLine) (st st1 : DbState),
      saleLoop invoiceNumber st ls = Except.ok st1 → StateInv st → StateInv st1
  | [], st, st1, h, hInv => by
    cases h
    exact hInv
  | l :: ls, st, st1, h, hInv => by
    unfold saleLoop at h
    cases hstep : saleLineStep invoiceNumber st l with
    | error e =>
      rw [hstep] at h
      cases h
    | ok st2 =>
      rw [hstep] at h
      exact saleLoop_inv invoiceNumber ls st2 st1 h
        (saleLineStep_inv invoiceNumber st l st2 hstep hInv)

lemma updateStockAfterSale_inv (st : DbState) (ls : List SaleLine)
    (invoiceNumber : String) (hInv : StateInv st) :
    StateInv (updateStockAfterSale st ls invoiceNumber).1 := by
  unfold updateStockAfterSale
  cases hres : saleLoop invoiceNumber st ls with
  | error e => exact hInv
  | ok st1 => exact saleLoop_inv invoiceNumber ls st st1 hres hInv

lemma reversalLineStep_inv (invoiceNumber : String) (st : DbState) (l : SaleLine)
    (hInv : StateInv st) : StateInv (reversalLineStep invoiceNumber st l) := by
  unfold reversalLineStep
  cases hitem : st.items l.itemId with
  | none => exact hInv
  | some dbItem =>
    exact stateInv_append st hInv l.itemId dbItem _ _ st.invoices hitem rfl rfl
      (by unfold entryOk; dsimp only []) rfl

lemma reverseStock_inv (invoiceNumber : String) :
    ∀ (ls : List SaleLine) (st : DbState), StateInv st →
      StateInv (reverseStockAfterSaleCancellation st ls invoiceNumber)
  | [], st, hInv => hInv
  | l :: ls, st, hInv =>
    reverseStock_inv invoiceNumber ls (reversalLineStep invoiceNumber st l)
      (reversalLineStep_inv invoiceNumber st l hInv)

lemma purchaseLineStep_inv (purchaseNumber : String) (st : DbState) (l : PurchaseLine)
    (hInv : StateInv st) : StateInv (purchaseLineStep purchaseNumber st l) := by
  unfold purchaseLineStep
  cases hitem : st.items l.itemId with
  | none => exact hInv
  | some dbItem =>
    exact stateInv_append st hInv l.itemId dbItem _ _ st.invoices hitem rfl rfl
      (by unfold entryOk; dsimp only []) rfl

lemma updateStockAfterPurchase_inv (purchaseNumber : String) :
    ∀ (ls : List PurchaseLine) (st : DbState), StateInv st →
      StateInv (updateStockAfterPurchase st ls purchaseNumber)
  | [], st, hInv => hInv
  | l :: ls, st, hInv =>
    updateStockAfterPurchase_inv purchaseNumber ls (purchaseLineStep purchaseNumber st l)
      (purchaseLineStep_inv purchaseNumber st l hInv)

lemma reachable_stateInv {st : DbState} (h : Reachable st) : StateInv st := by
  induction h with
  | init items invoices =>
    refine ⟨?_, ?_, ?_⟩
    · intro e he
      cases he
    · intro i
      trivial
    · intro i e he
      simp [entriesFor] at he
  | sale ls invoiceNumber _ ih => exact updateStockAfterSale_inv _ ls invoiceNumber ih
  | purchase ls purchaseNumber _ ih => exact updateStockAfterPurchase_inv purchaseNumber ls _ ih
  | reversal ls invoiceNumber _ ih => exact reverseStock_inv invoiceNumber ls _ ih

/-- C3: in every state reachable by sales, purchases and reversals, every
ledger row satisfies `newStock = previousStock + quantityChange`, and for
each item the rows chain: each row's `previousStock` is the previous row's
`newStock`. -/
theorem ledger_chain_invariant (st : DbState) (h : Reachable st) :
    (∀ e ∈ st.ledger, entryOk e) ∧ ∀ i, chainOk (entriesFor i st.ledger) :=
  ⟨(reachable_stateInv h).1, (reachable_stateInv h).2.1⟩

/-- Witness for C3: the invariant holds in the concrete reachable state. -/
theorem ledger_chain_invariant_witness :
    (∀ e ∈ demoState.ledger, entryOk e) ∧ ∀ i, chainOk (entriesFor i demoState.ledger) :=
  ledger_chain_invariant demoState
    (Reachable.sale _ _ (Reachable.purchase _ _ (Reachable.init demoItems [])))

lemma saleLineStep_error_form (invoiceNumber : String) (st : DbState) (l : SaleLine)
    (e : String) (h : saleLineStep invoiceNumber st l = Except.error e) :
    e = "Insufficient stock for " ++ l.name := by
  unfold saleLineStep at h
  cases hitem : st.items l.itemId with
  | none =>
    simp only [hitem] at h
    exact Except.noConfusion h
  | some dbItem =>
    simp only [hitem] at h
    by_cases hneg : dbItem.currentStock - l.quantity < 0
    · rw [if_pos hneg] at h
      cases h
      rfl
    · rw [if_neg hneg] at h
      exact Except.noConfusion h

lemma saleLineStep_stock_mono (invoiceNumber : String) (st : DbState) (l : SaleLine)
    (st1 : DbState) (hq : 0 ≤ l.quantity)
    (h : saleLineStep invoiceNumber st l = Except.ok st1)
    (j : Nat) (itm : Item) (hj : st.items j = some itm) :
    ∃ itm1, st1.items j = some itm1 ∧ itm1.currentStock ≤ itm.currentStock := by
  unfold saleLineStep at h
  cases hitem : st.items l.itemId with
  | none =>
    simp only [hitem] at h
    cases h
    exact ⟨itm, hj, le_refl _⟩
  | some dbItem =>
    simp only [hitem] at h
    by_cases hneg : dbItem.currentStock - l.quantity < 0
    · rw [if_pos hneg] at h
      exact Except.noConfusion h
    · rw [if_neg hneg] at h
      cases h
      by_cases hji : j = l.itemId
      · subst hji
        rw [hj] at hitem
        cases hitem
        refine ⟨⟨itm.currentStock - l.quantity, itm.purchasePrice⟩, ?_, ?_⟩
        · show (if l.itemId = l.itemId then
              some ⟨itm.currentStock - l.quantity, itm.purchasePrice⟩
            else st.items l.itemId) = _
          rw [if_pos rfl]
        · dsimp only []
          omega
      · refine ⟨itm, ?_, le_refl _⟩
        show (if j = l.itemId then _ else st.items j) = _
        rw [if_neg hji]
        exact hj

lemma saleLoop_insufficient (invoiceNumber : String) :
    ∀ (ls : List SaleLine) (st : DbState) (l : SaleLine) (itm : Item),
      l ∈ ls → (∀ x ∈ ls, 0 ≤ x.quantity) →
      st.items l.itemId = some itm → itm.currentStock < l.quantity →
      ∃ nm, saleLoop invoiceNumber st ls = Except.error ("Insufficient stock for " ++ nm)
  | [], _, _, _, hmem, _, _, _ => absurd hmem (List.not_mem_nil _)
  | a :: ls, st, l, itm, hmem, hq, hitem, hlt => by
    show ∃ nm, (match saleLineStep invoiceNumber st a with
      | Except.error e => Except.error e
      | Except.ok st1 => saleLoop invoiceNumber st1 ls) =
        Except.error ("Insufficient stock for " ++ nm)
    cases hstep : saleLineStep invoiceNumber st a with
    | error e =>
      refine ⟨a.name, ?_⟩
      show Except.error e = Except.error ("Insufficient stock for " ++ a.name)
      rw [saleLineStep_error_form invoiceNumber st a e hstep]
    | ok st2 =>
      rcases List.mem_cons.mp hmem with rfl | hmem2
      · exfalso
        unfold saleLineStep at hstep
        simp only [hitem] at hstep
        rw [if_pos (by omega)] at hstep
        exact Except.noConfusion hstep
      · obtain ⟨itm1, hitm1, hle⟩ := saleLineStep_stock_mono invoiceNumber st a st2
          (hq a (List.mem_cons_self a ls)) hstep l.itemId itm hitem
        obtain ⟨nm, hnm⟩ := saleLoop_insufficient invoiceNumber ls st2 l itm1 hmem2
          (fun x hx => hq x (List.mem_cons_of_mem a hx)) hitm1 (by omega)
        exact ⟨nm, hnm⟩

/-- C2: if any line of a sale batch (of nonnegative quantities) asks for
more than that item's current stock, the whole batch aborts: an
insufficient-stock error is reported and the returned state is the
untouched pre-state — no stock change, no ledger row. -/
theorem sale_insufficient_stock_aborts (st : DbState) (ls : List SaleLine)
    (invoiceNumber : String) (l : SaleLine) (itm : Item)
    (hmem : l ∈ ls) (hq : ∀ x ∈ ls, 0 ≤ x.quantity)
    (hitem : st.items l.itemId = some itm)
    (hlt : itm.currentStock < l.quantity) :
    ∃ nm, updateStockAfterSale st ls invoiceNumber =
      (st, some ("Insufficient stock for " ++ nm)) := by
  obtain ⟨nm, hnm⟩ := saleLoop_insufficient invoiceNumber ls st l itm hmem hq hitem hlt
  refine ⟨nm, ?_⟩
  unfold updateStockAfterSale
  rw [hnm]

/-- Witness for C2: requesting 15 of item 1 with stock 10 aborts. -/
theorem sale_insufficient_stock_aborts_witness :
    ∃ nm, updateStockAfterSale { items := demoItems, ledger := [], invoices := [] }
        [⟨1, 15, "Wire"⟩] "SE/2025-26/1001" =
      ({ items := demoItems, ledger := [], invoices := [] },
        some ("Insufficient stock for " ++ nm)) :=
  sale_insufficient_stock_aborts _ _ _ ⟨1, 15, "Wire"⟩ ⟨10, 9⟩
    (List.mem_singleton.mpr rfl) (by decide) rfl (by decide)

/-- C9: `cancelInvoice` on an invoice whose status is already `cancelled`
reports an error and every store is left unchanged (both guards run before
any mutation). -/
theorem cancel_already_cancelled (st : DbState) (invoiceId : Nat) (inv : Invoice)
    (hfind : st.invoices.find? (fun v => v.invId == invoiceId) = some inv)
    (hstatus : inv.status = "cancelled") :
    cancelInvoiceTx st invoiceId = (st, some "Invoice already cancelled") := by
  unfold cancelInvoiceTx cancelInvoice
  simp only [hfind, hstatus, if_pos]

/-- Witness for C9: the second cancellation of invoice 7 is rejected. -/
theorem cancel_already_cancelled_witness :
    cancelInvoiceTx cancelledState 7 = (cancelledState, some "Invoice already cancelled") :=
  cancel_already_cancelled cancelledState 7 ⟨7, "SE/2025-26/1001", "cancelled", []⟩ rfl rfl

lemma validateMessages_missing_mem (st : DbState) (l : SaleLine)
    (hmiss : st.items l.itemId = none) :
    ∀ ls2 : List SaleLine, l ∈ ls2 →
      ("Item ID " ++ toString l.itemId ++ " not found") ∈ validateMessages st ls2
  | a :: ls2, hmem => by
    unfold validateMessages
    rcases List.mem_cons.mp hmem with rfl | hmem2
    · rw [hmiss]
      exact List.mem_append_left _ (List.mem_singleton.mpr rfl)
    · exact List.mem_append_right _ (validateMessages_missing_mem st l hmiss ls2 hmem2)

lemma saleLineStep_preserves_none (invoiceNumber : String) (st : DbState) (l : SaleLine)
    (st1 : DbState) (h : saleLineStep invoiceNumber st l = Except.ok st1)
    (j : Nat) (hj : st.items j = none) : st1.items j = none := by
  unfold saleLineStep at h
  cases hitem : st.items l.itemId with
  | none =>
    simp only [hitem] at h
    cases h
    exact hj
  | some dbItem =>
    simp only [hitem] at h
    by_cases hneg : dbItem.currentStock - l.quantity < 0
    · rw [if_pos hneg] at h
      exact Except.noConfusion h
    · rw [if_neg hneg] at h
      cases h
      have hji : j ≠ l.itemId := by
        intro hji
        rw [hji, hitem] at hj
        exact Option.noConfusion hj
      show (if j = l.itemId then _ else st.items j) = none
      rw [if_neg hji]
      exact hj

lemma reversalLineStep_preserves_none (invoiceNumber : String) (st : DbState)
    (l : SaleLine) (j : Nat) (hj : st.items j = none) :
    (reversalLineStep invoiceNumber st l).items j = none := by
  unfold reversalLineStep
  cases hitem : st.items l.itemId with
  | none => exact hj
  | some dbItem =>
    have hji : j ≠ l.itemId := by
      intro hji
      rw [hji, hitem] at hj
      exact Option.noConfusion hj
    show (if j = l.itemId then _ else st.items j) = none
    rw [if_neg hji]
    exact hj

lemma purchaseLineStep_preserves_none (purchaseNumber : String) (st : DbState)
    (l : PurchaseLine) (j : Nat) (hj : st.items j = none) :
    (purchaseLineStep purchaseNumber st l).items j = none := by
  unfold purchaseLineStep
  cases hitem : st.items l.itemId with
  | none => exact hj
  | some dbItem =>
    have hji : j ≠ l.itemId := by
      intro hji
      rw [hji, hitem] at hj
      exact Option.noConfusion hj
    show (if j = l.itemId then _ else st.items j) = none
    rw [if_neg hji]
    exact hj

lemma saleLoop_skip (invoiceNumber : String) (i : Nat) (l : SaleLine)
    (hl : l.itemId = i) (ls : List SaleLine) :
    ∀ (ls1 : List SaleLine) (st : DbState), st.items i = none →
      saleLoop invoiceNumber st (ls1 ++ l :: ls) = saleLoop invoiceNumber st (ls1 ++ ls)
  | [], st, hmiss => by
    have hstep : saleLineStep invoiceNumber st l = Except.ok st := by
      unfold saleLineStep
      rw [hl, hmiss]
    show (match saleLineStep invoiceNumber st l with
      | Except.error e => Except.error e
      | Except.ok st1 => saleLoop invoiceNumber st1 ls) = _
    rw [hstep]
    rfl
  | a :: ls1, st, hmiss => by
    show (match saleLineStep invoiceNumber st a with
      | Except.error e => Except.error e
      | Except.ok st1 => saleLoop invoiceNumber st1 (ls1 ++ l :: ls)) =
      (match saleLineStep invoiceNumber st a with
        | Except.error e => Except.error e
        | Except.ok st1 => saleLoop invoiceNumber st1 (ls1 ++ ls))
    cases hstep : saleLineStep invoiceNumber st a with
    | error e => rfl
    | ok st2 =>
      exact saleLoop_skip invoiceNumber i l hl ls ls1 st2
        (saleLineStep_preserves_none invoiceNumber st a st2 hstep i hmiss)

lemma reversalFold_skip (invoiceNumber : String) (i : Nat) (l : SaleLine)
    (hl : l.itemId = i) (ls : List SaleLine) :
    ∀ (ls1 : List SaleLine) (st : DbState), st.items i = none →
      List.foldl (reversalLineStep invoiceNumber) st (ls1 ++ l :: ls) =
        List.foldl (reversalLineStep invoiceNumber) st (ls1 ++ ls)
  | [], st, hmiss => by
    have hstep : reversalLineStep invoiceNumber st l = st := by
      unfold reversalLineStep
      rw [hl, hmiss]
    show List.foldl _ st (l :: ls) = _
    rw [List.foldl_cons, hstep]
    rfl
  | a :: ls1, st, hmiss => by
    show List.foldl _ st (a :: (ls1 ++ l :: ls)) = List.foldl _ st (a :: (ls1 ++ ls))
    rw [List.foldl_cons, List.foldl_cons]
    exact reversalFold_skip invoiceNumber i l hl ls ls1 (reversalLineStep invoiceNumber st a)
      (reversalLineStep_preserves_none invoiceNumber st a i hmiss)

lemma purchaseFold_skip (purchaseNumber : String) (i : Nat) (lp : PurchaseLine)
    (hlp : lp.itemId = i) (lps : List PurchaseLine) :
    ∀ (lps1 : List PurchaseLine) (st : DbState), st.items i = none →
      List.foldl (purchaseLineStep purchaseNumber) st (lps1 ++ lp :: lps) =
        List.foldl (purchaseLineStep purchaseNumber) st (lps1 ++ lps)
  | [], st, hmiss => by
    have hstep : purchaseLineStep purchaseNumber st lp = st := by
      unfold purchaseLineStep
      rw [hlp, hmiss]
    show List.foldl _ st (lp :: lps) = _
    rw [List.foldl_cons, hstep]
    rfl
  | a :: lps1, st, hmiss => by
    show List.foldl _ st (a :: (lps1 ++ lp :: lps)) = List.foldl _ st (a :: (lps1 ++ lps))
    rw [List.foldl_cons, List.foldl_cons]
    exact purchaseFold_skip purchaseNumber i lp hlp lps lps1 (purchaseLineStep purchaseNumber st a)
      (purchaseLineStep_preserves_none purchaseNumber st a i hmiss)

/-- C10: a batch line whose `itemId` is absent from the items store is
silently skipped by all three stock mutators, wherever it sits in the
batch — no error, no ledger row, and all other lines are still applied —
while the dry-run `validateStockForSale` reports the missing item as an
error. -/
theorem missing_item_skipped (st : DbState) (i : Nat) (hmiss : st.items i = none)
    (l : SaleLine) (hl : l.itemId = i) (lp : PurchaseLine) (hlp : lp.itemId = i)
    (ls1 ls ls2 : List SaleLine) (lps1 lps : List PurchaseLine)
    (invoiceNumber purchaseNumber : String) :
    updateStockAfterSale st (ls1 ++ l :: ls) invoiceNumber =
      updateStockAfterSale st (ls1 ++ ls) invoiceNumber ∧
    reverseStockAfterSaleCancellation st (ls1 ++ l :: ls) invoiceNumber =
      reverseStockAfterSaleCancellation st (ls1 ++ ls) invoiceNumber ∧
    updateStockAfterPurchase st (lps1 ++ lp :: lps) purchaseNumber =
      updateStockAfterPurchase st (lps1 ++ lps) purchaseNumber ∧
    (l ∈ ls2 → (validateStockForSale st ls2).valid = false ∧
      ("Item ID " ++ toString i ++ " not found") ∈ (validateStockForSale st ls2).errors) := by
  refine ⟨?_, ?_, ?_, ?_⟩
  · unfold updateStockAfterSale
    rw [saleLoop_skip invoiceNumber i l hl ls ls1 st hmiss]
  · unfold reverseStockAfterSaleCancellation
    rw [reversalFold_skip invoiceNumber i l hl ls ls1 st hmiss]
  · unfold updateStockAfterPurchase
    rw [purchaseFold_skip purchaseNumber i lp hlp lps lps1 st hmiss]
  · intro hmem
    have hmem2 := validateMessages_missing_mem st l (hl ▸ hmiss) ls2 hmem
    rw [hl] at hmem2
    constructor
    · show ((validateMessages st ls2).length == 0) = false
      have : validateMessages st ls2 ≠ [] := List.ne_nil_of_mem hmem2
      simp [List.length_eq_zero, this]
    · exact hmem2

/-- Witness for C10: a sale, reversal and purchase batch headed by the
missing item 2 equals the batch without it, and validation flags item 2. -/
theorem missing_item_skipped_witness :
    (updateStockAfterSale { items := demoItemsOne, ledger := [], invoices := [] }
        [⟨2, 5, "Ghost"⟩, ⟨1, 5, "Wire"⟩] "SE/2025-26/1001" =
      updateStockAfterSale { items := demoItemsOne, ledger := [], invoices := [] }
        [⟨1, 5, "Wire"⟩] "SE/2025-26/1001") ∧
    (validateStockForSale { items := demoItemsOne, ledger := [], invoices := [] }
        [⟨2, 5, "Ghost"⟩]).valid = false := by
  have h := missing_item_skipped { items := demoItemsOne, ledger := [], invoices := [] }
    2 rfl ⟨2, 5, "Ghost"⟩ rfl ⟨2, 5, "Ghost", 12⟩ rfl
    [] [⟨1, 5, "Wire"⟩] [⟨2, 5, "Ghost"⟩] [] [] "SE/2025-26/1001" "PUR/0501"
  exact ⟨h.1, (h.2.2.2 (List.mem_singleton.mpr rfl)).1⟩

/-- C4: selling `q ≤ stock` of an item and then cancelling the completed
invoice restores the item row exactly, appends one compensating
`adjustment` row with `quantityChange = +q` and reference
`CANCEL-<invoiceNumber>` after the untouched original `sale` row, and
marks the invoice cancelled. -/
theorem sale_then_cancel_restores (st : DbState) (i invoiceId : Nat) (itm : Item)
    (q : Int) (nm invoiceNumber : String)
    (hitem : st.items i = some itm) (hq0 : 0 ≤ q) (hqle : q ≤ itm.currentStock) :
    (updateStockAfterSale st [⟨i, q, nm⟩] invoiceNumber).2 = none ∧
    ∃ st2,
      cancelInvoice
          { (updateStockAfterSale st [⟨i, q, nm⟩] invoiceNumber).1 with
            invoices := [⟨invoiceId, invoiceNumber, "completed", [⟨i, q, nm⟩]⟩] }
          invoiceId = Except.ok st2 ∧
      st2.items i = some itm ∧
      st2.ledger = st.ledger ++
        [⟨i, nm, "sale", invoiceNumber, -q, itm.currentStock, itm.currentStock - q⟩,
         ⟨i, nm, "adjustment", "CANCEL-" ++ invoiceNumber, q,
           itm.currentStock - q, itm.currentStock⟩] ∧
      st2.invoices = [⟨invoiceId, invoiceNumber, "cancelled", [⟨i, q, nm⟩]⟩] := by
  obtain ⟨s, pp⟩ := itm
  dsimp only [] at hqle
  have hstep : saleLineStep invoiceNumber st ⟨i, q, nm⟩ = Except.ok
      { items := fun j => if j = i then some ⟨s - q, pp⟩ else st.items j,
        ledger := st.ledger ++ [⟨i, nm, "sale", invoiceNumber, -q, s, s - q⟩],
        invoices := st.invoices } := by
    unfold saleLineStep
    dsimp only []
    simp only [hitem]
    rw [if_neg (by omega : ¬ s - q < 0)]
  have hsale : updateStockAfterSale st [⟨i, q, nm⟩] invoiceNumber =
      ({ items := fun j => if j = i then some ⟨s - q, pp⟩ else st.items j,
         ledger := st.ledger ++ [⟨i, nm, "sale", invoiceNumber, -q, s, s - q⟩],
         invoices := st.invoices }, none) := by
    unfold updateStockAfterSale
    have hloop : saleLoop invoiceNumber st [⟨i, q, nm⟩] = Except.ok
        { items := fun j => if j = i then some ⟨s - q, pp⟩ else st.items j,
          ledger := st.ledger ++ [⟨i, nm, "sale", invoiceNumber, -q, s, s - q⟩],
          invoices := st.invoices } := by
      show (match saleLineStep invoiceNumber st ⟨i, q, nm⟩ with
        | Except.error e => Except.error e
        | Except.ok st1 => saleLoop invoiceNumber st1 []) = _
      rw [hstep]
      rfl
    rw [hloop]
  have hrev : reverseStockAfterSaleCancellation
      { items := fun j => if j = i then some ⟨s - q, pp⟩ else st.items j,
        ledger := st.ledger ++ [⟨i, nm, "sale", invoiceNumber, -q, s, s - q⟩],
        invoices := [⟨invoiceId, invoiceNumber, "completed", [⟨i, q, nm⟩]⟩] }
      [⟨i, q, nm⟩] invoiceNumber =
      { items := fun j => if j = i then some ⟨s - q + q, pp⟩ else
          (fun j2 => if j2 = i then some (⟨s - q, pp⟩ : Item) else st.items j2) j,
        ledger := (st.ledger ++ [⟨i, nm, "sale", invoiceNumber, -q, s, s - q⟩]) ++
          [⟨i, nm, "adjustment", "CANCEL-" ++ invoiceNumber, q, s - q, s - q + q⟩],
        invoices := [⟨invoiceId, invoiceNumber, "completed", [⟨i, q, nm⟩]⟩] } := by
    unfold reverseStockAfterSaleCancellation
    rw [List.foldl_cons]
    unfold reversalLineStep
    dsimp only []
    rw [if_pos (rfl : i = i)]
    rfl
  have hfind : List.find? (fun v => v.invId == invoiceId)
      [(⟨invoiceId, invoiceNumber, "completed", [⟨i, q, nm⟩]⟩ : Invoice)] =
      some ⟨invoiceId, invoiceNumber, "completed", [⟨i, q, nm⟩]⟩ := by
    simp [List.find?]
  have hcancel : cancelInvoice
      { items := fun j => if j = i then some ⟨s - q, pp⟩ else st.items j,
        ledger := st.ledger ++ [⟨i, nm, "sale", invoiceNumber, -q, s, s - q⟩],
        invoices := [⟨invoiceId, invoiceNumber, "completed", [⟨i, q, nm⟩]⟩] } invoiceId =
      Except.ok
      { items := fun j => if j = i then some ⟨s - q + q, pp⟩ else
          (fun j2 => if j2 = i then some (⟨s - q, pp⟩ : Item) else st.items j2) j,
        ledger := (st.ledger ++ [⟨i, nm, "sale", invoiceNumber, -q, s, s - q⟩]) ++
          [⟨i, nm, "adjustment", "CANCEL-" ++ invoiceNumber, q, s - q, s - q + q⟩],
        invoices := [⟨invoiceId, invoiceNumber, "cancelled", [⟨i, q, nm⟩]⟩] } := by
    unfold cancelInvoice
    dsimp only []
    simp only [hfind]
    rw [if_pos True.intro]
    rw [hrev]
    simp only [List.map_cons, List.map_nil]
    rw [if_pos True.intro]
    rw [if_neg (by decide : ¬ ("completed" : String) = "cancelled")]
  refine ⟨by rw [hsale], ?_⟩
  rw [hsale]
  dsimp only []
  refine ⟨_, hcancel, ?_, ?_, rfl⟩
  · show (if i = i then some (⟨s - q + q, pp⟩ : Item) else _) = some ⟨s, pp⟩
    rw [if_pos rfl, show s - q + q = s from by omega]
  · show (st.ledger ++ [⟨i, nm, "sale", invoiceNumber, -q, s, s - q⟩]) ++
        [⟨i, nm, "adjustment", "CANCEL-" ++ invoiceNumber, q, s - q, s - q + q⟩] = _
    rw [show s - q + q = s from by omega, List.append_assoc]
    rfl

/-- Witness for C4: sell 3 of item 1 (stock 10), cancel invoice 7. -/
theorem sale_then_cancel_restores_witness :
    (updateStockAfterSale { items := demoItems, ledger := [], invoices := [] }
        [⟨1, 3, "Wire"⟩] "SE/2025-26/1001").2 = none ∧
    ∃ st2,
      cancelInvoice
          { (updateStockAfterSale { items := demoItems, ledger := [], invoices := [] }
              [⟨1, 3, "Wire"⟩] "SE/2025-26/1001").1 with
            invoices := [⟨7, "SE/2025-26/1001", "completed", [⟨1, 3, "Wire"⟩]⟩] } 7 =
        Except.ok st2 ∧
      st2.items 1 = some ⟨10, 9⟩ ∧
      st2.ledger = ([] : List StockLedgerEntry) ++
        [⟨1, "Wire", "sale", "SE/2025-26/1001", -3, 10, 10 - 3⟩,
         ⟨1, "Wire", "adjustment", "CANCEL-" ++ "SE/2025-26/1001", 3, 10 - 3, 10⟩] ∧
      st2.invoices = [⟨7, "SE/2025-26/1001", "cancelled", [⟨1, 3, "Wire"⟩]⟩] :=
  sale_then_cancel_restores { items := demoItems, ledger := [], invoices := [] }
    1 7 ⟨10, 9⟩ 3 "Wire" "SE/2025-26/1001" rfl (by decide) (by decide)

/-- Witness for C7's amended theorem at taxable 1000, rate 18, intrastate:
the GST amount 180 is nonzero and positive, so both implications fire. -/
theorem gst_group_exclusivity_witness :
    exactlyOneGroup (calculateGstBreakdown 1000 18 false).cgst
      (calculateGstBreakdown 1000 18 false).sgst
      (calculateGstBreakdown 1000 18 false).igst ∧
    exactlyOneGroup (calculateGst 1000 18 false).cgst
      (calculateGst 1000 18 false).sgst (calculateGst 1000 18 false).igst := by
  have hval : roundGstAmount ((1000 : ℚ) * 18 / 100) = 180 := by
    unfold roundGstAmount roundToTwoDecimals
    rw [jsRound_eq_of ((1000 : ℚ) * 18 / 100 * 100) 18000 (by norm_num) (by norm_num)]
    norm_num
  have h := gst_group_exclusivity 1000 18 false
  refine ⟨h.2.2.1 ?_, h.2.2.2 ?_⟩
  · rw [hval]
    norm_num
  · rw [roundCurrency_eq_roundToTwoDecimals]
    rw [show roundToTwoDecimals ((1000 : ℚ) * 18 / 100) = roundGstAmount ((1000 : ℚ) * 18 / 100) from rfl]
    rw [hval]
    norm_num
